import Mathlib

/-!
Shallow embedding of the SaltEngine scene-canvas interaction engine.

Sources embedded here:
* `src/types/gameObject.ts`, `src/types/scene.ts` (layer-aware variant): the
  data model — `GameObject`, `Layer`, `Scene`.
* the history manager (`HistoryManager` with `pushState` / `undo` / `redo` /
  `canUndo` / `canRedo` / `clear`), whose undo/redo stacks are JS arrays with
  the top at the END (`push`/`pop` operate on the end, `shift` drops the front).
  `deepCopyScenes` is a JSON round-trip, i.e. a value copy; on immutable Lean
  values it is the identity, and `{...st, scenes: copy}` rebuilds a value-equal
  record, so both are modelled by returning the stored value itself.
* `src/renderer/components/canvas.ts`: `render`'s layer-visibility filter,
  `getObjectBounds`, `isPointInObject`, the hit-test loop of `onMouseDown`,
  `snapToGridAndObjects`, the marquee branch of `onMouseUp`, and the resize
  branch of `onMouseMove`.

Numeric modelling: JS `number` is modelled by an arbitrary linear ordered field
(instantiated at `ℚ` for executable witnesses, and at `ℝ` for the
rotation-aware geometry, where `Math.cos`/`Math.sin`/`Math.PI` are `Real.cos`/
`Real.sin`/`Real.pi`).  `Math.round x` is `⌊x + 1/2⌋` (round half toward +∞),
which agrees with JS on every real input.  Division follows Lean's `x / 0 = 0`
convention.
-/

namespace SaltEngine

/-- 2D vector (`Vector2` in `gameObject.ts`). -/
@[ext]
structure Vector2 (α : Type) where
  x : α
  y : α
  deriving DecidableEq, Repr

/-- `GameObjectType` enum from `gameObject.ts`. -/
inductive GameObjectType where
  | asset
  | text_display
  | mesh_3d
  deriving DecidableEq, Repr

/-- The property-bag fields of `Mesh3DProperties` that `getObjectBounds`
reads (`width`, `height`, `radius`; all optional). -/
structure Mesh3DProperties (α : Type) where
  width : Option α := none
  height : Option α := none
  radius : Option α := none
  deriving DecidableEq, Repr

/-- A scene object (`GameObject` in `gameObject.ts`), restricted to the fields
the canvas interaction engine reads.  `objWidth`/`objHeight` model the dynamic
`(assetObj as any).width` / `.height` fields read by `getObjectBounds` for
asset objects (absent on the declared `AssetObject` class, hence optional). -/
structure GameObject (α : Type) where
  id : String
  type : GameObjectType
  position : Vector2 α
  rotation : α
  scale : Vector2 α
  layer : Option Int := none
  objWidth : Option α := none
  objHeight : Option α := none
  properties : Mesh3DProperties α := {}
  deriving DecidableEq, Repr

/-- `Layer` from the layer-aware `scene.ts`. -/
structure Layer where
  id : Int
  name : String
  visible : Bool
  locked : Bool
  deriving DecidableEq, Repr

/-- `Scene` from the layer-aware `scene.ts` (the optional `groups` field is
never read by the embedded operations and is omitted). -/
structure Scene (α : Type) where
  id : String
  name : String
  gameObjects : List (GameObject α)
  layers : Option (List Layer) := none
  deriving DecidableEq, Repr

/-- A width/height pair, the return shape of `getObjectBounds`. -/
structure Bounds (α : Type) where
  width : α
  height : α
  deriving DecidableEq, Repr

variable {α : Type}

/-- `CanvasRenderer.getObjectBounds(obj, applyScale)`: the base unscaled size
per object type, optionally multiplied by the object's scale. -/
def getObjectBounds [Field α] (obj : GameObject α) (applyScale : Bool) : Bounds α :=
  let baseWidth : α :=
    match obj.type with
    | .asset => obj.objWidth.getD 40
    | .text_display => 100
    | .mesh_3d => obj.properties.width.getD (obj.properties.radius.getD 50)
  let baseHeight : α :=
    match obj.type with
    | .asset => obj.objHeight.getD 40
    | .text_display => 50
    | .mesh_3d => obj.properties.height.getD (obj.properties.radius.getD 50)
  if applyScale then
    { width := baseWidth * obj.scale.x, height := baseHeight * obj.scale.y }
  else
    { width := baseWidth, height := baseHeight }

/-- The layer record governing an object, as `render` looks it up:
`scene.layers?.find((l) => l.id === (obj.layer ?? 0))`. -/
def jsLayerOf (scene : Scene α) (obj : GameObject α) : Option Layer :=
  match scene.layers with
  | some ls => ls.find? (fun l => l.id == obj.layer.getD 0)
  | none => none

/-- Whether `render` treats the object's layer as visible: the object is
skipped iff a layer record was found and its `visible` flag is `false`. -/
def layerVisible (scene : Scene α) (obj : GameObject α) : Bool :=
  match jsLayerOf scene obj with
  | some l => l.visible
  | none => true

end SaltEngine

namespace SaltEngine

/-! ## History manager

`HistoryManager` over an abstract scene-list type `σ` (the manager treats the
pushed scene list opaquely; `deepCopyScenes` is a value copy).  The JS arrays
`undoStack`/`redoStack` are lists with the stack top at the END. -/

/-- `HistoryState`: a snapshot of the full scene list plus a timestamp. -/
structure HistoryState (σ : Type) where
  scenes : σ
  timestamp : Int
  deriving DecidableEq, Repr

/-- The two stacks of `HistoryManager`. -/
structure HistoryManager (σ : Type) where
  undoStack : List (HistoryState σ) := []
  redoStack : List (HistoryState σ) := []
  deriving DecidableEq, Repr

/-- `maxHistorySize` field of `HistoryManager`. -/
def maxHistorySize : Nat := 50

/-- `HistoryManager.pushState(scenes)` at time `now`: push the snapshot, clear
the redo stack, and `shift()` off the oldest entry if the stack grew past
`maxHistorySize`. -/
def pushState (m : HistoryManager σ) (scenes : σ) (now : Int) : HistoryManager σ :=
  let state : HistoryState σ := { scenes := scenes, timestamp := now }
  let u := m.undoStack ++ [state]
  { undoStack := if maxHistorySize < u.length then u.drop 1 else u
    redoStack := [] }

/-- `HistoryManager.undo()`: returns the popped-to state (or `null`) together
with the updated manager.  No-op when at most one state exists; otherwise the
top is popped onto the redo stack and a copy of the new top is returned. -/
def undo (m : HistoryManager σ) : Option (HistoryState σ) × HistoryManager σ :=
  if m.undoStack.length ≤ 1 then (none, m)
  else
    match m.undoStack.getLast? with
    | none => (none, m)
    | some currentState =>
      let m' : HistoryManager σ :=
        { undoStack := m.undoStack.dropLast
          redoStack := m.redoStack ++ [currentState] }
      (m'.undoStack.getLast?, m')

/-- `HistoryManager.redo()`: no-op when the redo stack is empty; otherwise one
entry is popped back onto the undo stack and a copy of it is returned. -/
def redo (m : HistoryManager σ) : Option (HistoryState σ) × HistoryManager σ :=
  if m.redoStack.length = 0 then (none, m)
  else
    match m.redoStack.getLast? with
    | none => (none, m)
    | some state =>
      (some state,
        { undoStack := m.undoStack ++ [state]
          redoStack := m.redoStack.dropLast })

/-- `HistoryManager.canUndo()`. -/
def canUndo (m : HistoryManager σ) : Bool := 1 < m.undoStack.length

/-- `HistoryManager.canRedo()`. -/
def canRedo (m : HistoryManager σ) : Bool := 0 < m.redoStack.length

/-- `HistoryManager.clear()` / the freshly constructed manager. -/
def clearHistory : HistoryManager σ := { undoStack := [], redoStack := [] }

/-- A client-visible history operation (the public mutating API). -/
inductive HistoryOp (σ : Type) where
  | pushOp (scenes : σ) (now : Int)
  | undoOp
  | redoOp
  | clearOp
  deriving Repr

/-- Apply one history operation (return values discarded). -/
def stepHistory (m : HistoryManager σ) : HistoryOp σ → HistoryManager σ
  | .pushOp s t => pushState m s t
  | .undoOp => (undo m).2
  | .redoOp => (redo m).2
  | .clearOp => clearHistory

/-- Run a sequence of history operations from a fresh manager. -/
def runHistory (ops : List (HistoryOp σ)) : HistoryManager σ :=
  ops.foldl stepHistory clearHistory

/-- `pairs.foldl pushState` from a fresh manager: N successive `pushState`
calls. -/
def afterPushes (pairs : List (σ × Int)) : HistoryManager σ :=
  pairs.foldl (fun m p => pushState m p.1 p.2) clearHistory

/-- `n` successive `undo()` calls (results discarded). -/
def undoN : Nat → HistoryManager σ → HistoryManager σ
  | 0, m => m
  | n + 1, m => undoN n (undo m).2

end SaltEngine

namespace SaltEngine

variable {σ : Type}

lemma undo_snd_of_canUndo (m : HistoryManager σ) (h : 1 < m.undoStack.length) :
    (undo m).2 = { undoStack := m.undoStack.dropLast
                   redoStack := m.redoStack ++ [m.undoStack.getLast (by
                     intro hnil
                     rw [hnil] at h
                     simp at h)] } := by
  have hne : m.undoStack ≠ [] := by
    intro hnil
    rw [hnil] at h
    simp at h
  rw [undo, if_neg (by omega), List.getLast?_eq_getLast _ hne]

lemma undo_snd_undoStack (m : HistoryManager σ) (h : 1 < m.undoStack.length) :
    (undo m).2.undoStack = m.undoStack.dropLast := by
  rw [undo_snd_of_canUndo m h]

/-- C8: `undo()` with at most one stored state and `redo()` with an empty redo
stack each return `null` and leave the manager exactly unchanged. -/
theorem undo_redo_underflow_noop :
    ∀ (σ : Type) (m : HistoryManager σ),
      (m.undoStack.length ≤ 1 → undo m = (none, m)) ∧
      (m.redoStack = [] → redo m = (none, m)) := by
  intro σ m
  constructor
  · intro h
    rw [undo, if_pos h]
  · intro h
    rw [redo, if_pos (by rw [h]; rfl)]

/-- Concrete input for the underflow no-op theorem: one stored state, empty
redo stack. -/
def underflowManager : HistoryManager (List (Scene ℚ)) :=
  { undoStack := [{ scenes := [], timestamp := 0 }], redoStack := [] }

theorem undo_redo_underflow_noop_witness :
    (underflowManager.undoStack.length ≤ 1 ∧
      undo underflowManager = (none, underflowManager)) ∧
    (underflowManager.redoStack = [] ∧
      redo underflowManager = (none, underflowManager)) :=
  ⟨⟨by decide, (undo_redo_underflow_noop _ underflowManager).1 (by decide)⟩,
   ⟨rfl, (undo_redo_underflow_noop _ underflowManager).2 rfl⟩⟩

/-- C6: whenever `canUndo()` holds, `undo()` followed by `redo()` restores the
manager exactly, and the state returned by `redo()` carries the scenes that
were on top of the undo stack before the `undo()`. -/
theorem undo_then_redo_roundtrip :
    ∀ (σ : Type) (m : HistoryManager σ), canUndo m = true →
      (redo (undo m).2).2 = m ∧
      ((redo (undo m).2).1).map HistoryState.scenes
        = (m.undoStack.getLast?).map HistoryState.scenes := by
  intro σ m h
  have hlen : 1 < m.undoStack.length := by
    simpa [canUndo] using h
  have hne : m.undoStack ≠ [] := by
    intro hnil
    rw [hnil] at hlen
    simp at hlen
  rw [undo_snd_of_canUndo m hlen]
  rw [redo, if_neg (by simp)]
  rw [List.getLast?_concat]
  constructor
  · simp [List.dropLast_concat, List.dropLast_append_getLast hne]
  · rw [List.getLast?_eq_getLast _ hne]

/-- Concrete input for the undo/redo round-trip theorem: two stored states. -/
def roundtripManager : HistoryManager (List (Scene ℚ)) :=
  { undoStack := [{ scenes := [], timestamp := 0 },
                  { scenes := ([{ id := "s", name := "s", gameObjects := [], layers := none }] :
                      List (Scene ℚ)), timestamp := 1 }]
    redoStack := [] }

theorem undo_then_redo_roundtrip_witness :
    canUndo roundtripManager = true ∧
    (redo (undo roundtripManager).2).2 = roundtripManager ∧
    ((redo (undo roundtripManager).2).1).map HistoryState.scenes
      = (roundtripManager.undoStack.getLast?).map HistoryState.scenes :=
  ⟨by decide,
   (undo_then_redo_roundtrip _ roundtripManager (by decide)).1,
   (undo_then_redo_roundtrip _ roundtripManager (by decide)).2⟩

lemma stepHistory_inv (m : HistoryManager σ) (op : HistoryOp σ)
    (h : m.undoStack.length + m.redoStack.length ≤ maxHistorySize) :
    (stepHistory m op).undoStack.length + (stepHistory m op).redoStack.length
      ≤ maxHistorySize := by
  cases op with
  | pushOp s t =>
    simp only [stepHistory, pushState]
    by_cases hlt : maxHistorySize < (m.undoStack ++ [({ scenes := s, timestamp := t } : HistoryState σ)]).length
    · rw [if_pos hlt]
      simp at hlt ⊢
      omega
    · rw [if_neg hlt]
      simp at hlt ⊢
      omega
  | undoOp =>
    simp only [stepHistory, undo]
    by_cases hle : m.undoStack.length ≤ 1
    · rw [if_pos hle]
      exact h
    · rw [if_neg hle]
      cases hgl : m.undoStack.getLast? with
      | none => exact h
      | some a =>
        simp only [List.length_dropLast, List.length_append, List.length_cons,
          List.length_nil]
        omega
  | redoOp =>
    simp only [stepHistory, redo]
    by_cases hz : m.redoStack.length = 0
    · rw [if_pos hz]
      exact h
    · rw [if_neg hz]
      cases hgl : m.redoStack.getLast? with
      | none => exact h
      | some a =>
        simp only [List.length_dropLast, List.length_append, List.length_cons,
          List.length_nil]
        omega
  | clearOp =>
    simp [stepHistory, clearHistory, maxHistorySize]

lemma foldl_stepHistory_inv :
    ∀ (ops : List (HistoryOp σ)) (m : HistoryManager σ),
      m.undoStack.length + m.redoStack.length ≤ maxHistorySize →
      (ops.foldl stepHistory m).undoStack.length
        + (ops.foldl stepHistory m).redoStack.length ≤ maxHistorySize := by
  intro ops
  induction ops with
  | nil => intro m h; exact h
  | cons op rest ih =>
    intro m h
    exact ih (stepHistory m op) (stepHistory_inv m op h)

/-- C7: along every operation sequence from a fresh manager the undo stack
holds at most `maxHistorySize` (50) entries; `pushState` always leaves the
redo stack empty (`canRedo()` is `false` right after it); and a `pushState`
on a full stack evicts exactly the oldest entry. -/
theorem history_bounded_push_clears_redo :
    ∀ (σ : Type) (ops : List (HistoryOp σ)),
      (runHistory ops).undoStack.length ≤ maxHistorySize ∧
      (∀ (s : σ) (t : Int), canRedo (pushState (runHistory ops) s t) = false) ∧
      (∀ (s : σ) (t : Int),
        (runHistory ops).undoStack.length = maxHistorySize →
          (pushState (runHistory ops) s t).undoStack
            = (runHistory ops).undoStack.drop 1 ++ [{ scenes := s, timestamp := t }]) := by
  intro σ ops
  have hinv : (runHistory ops).undoStack.length + (runHistory ops).redoStack.length
      ≤ maxHistorySize :=
    foldl_stepHistory_inv ops (clearHistory (σ := σ)) (by simp [clearHistory, maxHistorySize])
  refine ⟨by omega, ?_, ?_⟩
  · intro s t
    simp [pushState, canRedo]
  · intro s t hfull
    simp only [pushState]
    rw [if_pos (by simp [hfull])]
    rw [List.drop_append_of_le_length (by rw [hfull]; norm_num [maxHistorySize])]

lemma pushState_undoStack_of_le (m : HistoryManager σ) (s : σ) (t : Int)
    (h : m.undoStack.length + 1 ≤ maxHistorySize) :
    (pushState m s t).undoStack = m.undoStack ++ [{ scenes := s, timestamp := t }] := by
  simp only [pushState]
  rw [if_neg (by simp; omega)]

lemma foldl_pushState_spec :
    ∀ (pairs : List (σ × Int)) (m : HistoryManager σ),
      m.undoStack.length + pairs.length ≤ maxHistorySize →
      (pairs.foldl (fun m p => pushState m p.1 p.2) m).undoStack
          = m.undoStack ++ pairs.map (fun p => { scenes := p.1, timestamp := p.2 }) ∧
      (pairs ≠ [] → (pairs.foldl (fun m p => pushState m p.1 p.2) m).redoStack = []) := by
  intro pairs
  induction pairs with
  | nil =>
    intro m h
    exact ⟨by simp, fun habs => absurd rfl habs⟩
  | cons p rest ih =>
    intro m h
    simp only [List.foldl_cons, List.map_cons]
    have hlen : m.undoStack.length + 1 ≤ maxHistorySize := by
      simp only [List.length_cons] at h
      omega
    have hpush := pushState_undoStack_of_le m p.1 p.2 hlen
    have hrest := ih (pushState m p.1 p.2) (by
      rw [hpush]
      simp only [List.length_append, List.length_cons, List.length_nil] at h ⊢
      omega)
    refine ⟨?_, ?_⟩
    · rw [hrest.1, hpush, List.append_assoc]
      simp
    · intro _
      rcases rest with _ | ⟨q, rest⟩
      · simp [pushState]
      · exact hrest.2 (by simp)

lemma afterPushes_undoStack (pairs : List (σ × Int)) (h : pairs.length ≤ maxHistorySize) :
    (afterPushes pairs).undoStack
      = pairs.map (fun p => { scenes := p.1, timestamp := p.2 }) := by
  have := (foldl_pushState_spec pairs clearHistory (by simp [clearHistory]; omega)).1
  simpa [afterPushes, clearHistory] using this

lemma undoN_undoStack :
    ∀ (k : Nat) (m : HistoryManager σ), k < m.undoStack.length →
      (undoN k m).undoStack = m.undoStack.take (m.undoStack.length - k) := by
  intro k
  induction k with
  | zero =>
    intro m _
    simp [undoN, List.take_length]
  | succ n ih =>
    intro m h
    have hlen : 1 < m.undoStack.length := by omega
    have hstep : (undo m).2.undoStack = m.undoStack.dropLast := undo_snd_undoStack m hlen
    have hlen2 : n < (undo m).2.undoStack.length := by
      rw [hstep, List.length_dropLast]
      omega
    have := ih (undo m).2 hlen2
    rw [hstep] at this
    rw [undoN, this, List.length_dropLast, List.dropLast_eq_take, List.take_take]
    congr 1
    omega

lemma undo_fst_two (a b : HistoryState σ) (r : List (HistoryState σ)) :
    (undo { undoStack := [a, b], redoStack := r }).1 = some a := by
  rw [undo, if_neg (by simp)]
  simp

/-- C5 (amended): from a fresh manager, after `N` `pushState` calls with
`2 ≤ N ≤ maxHistorySize` followed by `N - 1` `undo()` calls, `canUndo()` is
`false` and the state returned by the last `undo()` carries exactly the first
pushed scene list.  (For `N > maxHistorySize` the cap evicts the oldest
snapshots and the last `undo()` returns `null` instead.) -/
theorem pushN_then_undoNminus1 :
    ∀ (σ : Type) (pairs : List (σ × Int)),
      2 ≤ pairs.length → pairs.length ≤ maxHistorySize →
      canUndo (undoN (pairs.length - 1) (afterPushes pairs)) = false ∧
      ((undo (undoN (pairs.length - 2) (afterPushes pairs))).1).map HistoryState.scenes
        = pairs.head?.map Prod.fst := by
  intro σ pairs h2 h50
  have hstack := afterPushes_undoStack pairs h50
  have hlen0 : (afterPushes pairs).undoStack.length = pairs.length := by
    rw [hstack]
    simp
  have h1 := undoN_undoStack (pairs.length - 1) (afterPushes pairs) (by omega)
  have h2' := undoN_undoStack (pairs.length - 2) (afterPushes pairs) (by omega)
  constructor
  · have hlen1 : (undoN (pairs.length - 1) (afterPushes pairs)).undoStack.length = 1 := by
      rw [h1, List.length_take]
      omega
    simp [canUndo, hlen1]
  · have htake : (afterPushes pairs).undoStack.take
        ((afterPushes pairs).undoStack.length - (pairs.length - 2))
        = (afterPushes pairs).undoStack.take 2 := by
      congr 1
      omega
    rw [htake, hstack] at h2'
    rcases pairs with _ | ⟨p0, pairs1⟩
    · simp at h2
    rcases pairs1 with _ | ⟨p1, rest⟩
    · simp at h2
    simp only [List.map_cons, List.take_succ_cons, List.take_zero] at h2'
    have hrepr : undoN ((p0 :: p1 :: rest).length - 2) (afterPushes (p0 :: p1 :: rest))
        = { undoStack := [{ scenes := p0.1, timestamp := p0.2 },
                          { scenes := p1.1, timestamp := p1.2 }]
            redoStack := (undoN ((p0 :: p1 :: rest).length - 2)
              (afterPushes (p0 :: p1 :: rest))).redoStack } := by
      rw [← h2']
    rw [hrepr, undo_fst_two]
    simp

/-- The single scene list pushed 51 times in the overflow counterexample. -/
def overflowPush : List (Scene ℚ) × Int := ([], 0)

set_option maxRecDepth 40000 in
/-- C5 counterexample: with `N = 51` pushes of the same scene list, the
`(N-1)`-th (50th) `undo()` returns `null`, not a state deep-equal to the first
pushed scene list (`some []`), because the 51st push evicted the oldest
snapshot. -/
theorem pushN_then_undoNminus1_counterexample :
    ((undo (undoN (51 - 2) (afterPushes (List.replicate 51 overflowPush)))).1).map
        HistoryState.scenes = none ∧
    (List.replicate 51 overflowPush).length = 51 ∧
    (List.replicate 51 overflowPush).head?.map Prod.fst = some [] := by
  refine ⟨?_, by simp, rfl⟩
  rfl

/-- Concrete pushes (N = 3) for the amended C5 theorem. -/
def witnessPushes : List (List (Scene ℚ) × Int) :=
  [([], 0),
   ([{ id := "a", name := "a", gameObjects := [], layers := none }], 1),
   ([], 2)]

theorem pushN_then_undoNminus1_witness :
    (2 ≤ witnessPushes.length ∧ witnessPushes.length ≤ maxHistorySize) ∧
    canUndo (undoN (witnessPushes.length - 1) (afterPushes witnessPushes)) = false ∧
    ((undo (undoN (witnessPushes.length - 2) (afterPushes witnessPushes))).1).map
        HistoryState.scenes = witnessPushes.head?.map Prod.fst :=
  ⟨⟨by decide, by decide⟩,
   (pushN_then_undoNminus1 _ witnessPushes (by decide) (by decide)).1,
   (pushN_then_undoNminus1 _ witnessPushes (by decide) (by decide)).2⟩

/-- Concrete operation sequence (50 pushes) for the history-bound theorem. -/
def fullStackOps : List (HistoryOp (List (Scene ℚ))) :=
  List.replicate 50 (HistoryOp.pushOp [] 0)

set_option maxRecDepth 40000 in
theorem history_bounded_push_clears_redo_witness :
    (runHistory fullStackOps).undoStack.length = maxHistorySize ∧
    (pushState (runHistory fullStackOps) [] 7).undoStack
      = (runHistory fullStackOps).undoStack.drop 1 ++ [{ scenes := [], timestamp := 7 }] ∧
    canRedo (pushState (runHistory fullStackOps) [] 7) = false :=
  ⟨by rfl,
   (history_bounded_push_clears_redo _ fullStackOps).2.2 [] 7 (by rfl),
   (history_bounded_push_clears_redo _ fullStackOps).2.1 [] 7⟩

end SaltEngine

namespace SaltEngine

/-! ## Snapping engine (`snapToGridAndObjects`)

Generic over a linear ordered field with a floor, so the same definitions run
decidably at `ℚ` and embed the JS float arithmetic at any such field. -/

section Snap

variable {α : Type} [LinearOrderedField α] [FloorRing α] [DecidableEq α]

/-- JS `Math.round`: round half toward positive infinity. -/
def jsRound (x : α) : ℤ := ⌊x + 1 / 2⌋

/-- `Math.round(v / gridSize) * gridSize` with `gridSize = 50`. -/
def gridSnapCoord (x : α) : α := ((jsRound (x / 50) : ℤ) : α) * 50

/-- The return shape of `snapToGridAndObjects`: the snapped position plus the
optional `snapX`/`snapY` guide coordinates. -/
structure SnapResult (α : Type) where
  x : α
  y : α
  snapX : Option α
  snapY : Option α
  deriving DecidableEq, Repr

/-- One iteration of the object-snap loop body of `snapToGridAndObjects`:
skip the dragged object itself and currently-selected objects, otherwise
compare the running snapped coordinate against the object's position on each
axis (threshold 10) and overwrite on a match. -/
def snapStep (currentObj : GameObject α) (selected : List (GameObject α))
    (acc : SnapResult α) (obj : GameObject α) : SnapResult α :=
  if obj.id = currentObj.id ∨ obj ∈ selected then acc
  else
    { x := if |acc.x - obj.position.x| < 10 then obj.position.x else acc.x
      y := if |acc.y - obj.position.y| < 10 then obj.position.y else acc.y
      snapX := if |acc.x - obj.position.x| < 10 then some obj.position.x else acc.snapX
      snapY := if |acc.y - obj.position.y| < 10 then some obj.position.y else acc.snapY }

/-- `CanvasRenderer.snapToGridAndObjects(x, y, currentObj)` against the active
scene and the current selection: grid pass (threshold 10 around multiples of
50) followed by the object-snap loop over `scene.gameObjects`. -/
def snapToGridAndObjects (x y : α) (currentObj : GameObject α)
    (selected : List (GameObject α)) (scene : Scene α) : SnapResult α :=
  let gridSnapX := gridSnapCoord x
  let gridSnapY := gridSnapCoord y
  let init : SnapResult α :=
    { x := if |x - gridSnapX| < 10 then gridSnapX else x
      y := if |y - gridSnapY| < 10 then gridSnapY else y
      snapX := if |x - gridSnapX| < 10 then some gridSnapX else none
      snapY := if |y - gridSnapY| < 10 then some gridSnapY else none }
  scene.gameObjects.foldl (snapStep currentObj selected) init

/-- Specification-side single-axis grid pass. -/
def gridSnap1D (x : α) : α × Option α :=
  if |x - gridSnapCoord x| < 10 then (gridSnapCoord x, some (gridSnapCoord x)) else (x, none)

/-- Specification-side single-axis object pass: fold the candidate coordinates
over the running value, last match within the threshold wins. -/
def objectSnap1D (p : α × Option α) (coords : List α) : α × Option α :=
  coords.foldl (fun acc c => if |acc.1 - c| < 10 then (c, some c) else acc) p

/-- The objects the object-snap loop actually compares against: everything in
the scene except the dragged object (by id) and the current selection. -/
def eligibleObjects (currentObj : GameObject α) (selected : List (GameObject α))
    (scene : Scene α) : List (GameObject α) :=
  scene.gameObjects.filter (fun o => decide (¬(o.id = currentObj.id ∨ o ∈ selected)))

lemma objectSnap1D_cons (v : α) (mv : Option α) (c : α) (cs : List α) :
    objectSnap1D (v, mv) (c :: cs)
      = objectSnap1D (if |v - c| < 10 then (c, some c) else (v, mv)) cs := rfl

lemma snapStep_pair_x (cur : GameObject α) (sel : List (GameObject α))
    (acc : SnapResult α) (o : GameObject α) (h : ¬(o.id = cur.id ∨ o ∈ sel)) :
    ((snapStep cur sel acc o).x, (snapStep cur sel acc o).snapX)
      = if |acc.x - o.position.x| < 10 then (o.position.x, some o.position.x)
        else (acc.x, acc.snapX) := by
  rw [snapStep, if_neg h]
  by_cases hc : |acc.x - o.position.x| < 10 <;> simp [hc]

lemma snapStep_pair_y (cur : GameObject α) (sel : List (GameObject α))
    (acc : SnapResult α) (o : GameObject α) (h : ¬(o.id = cur.id ∨ o ∈ sel)) :
    ((snapStep cur sel acc o).y, (snapStep cur sel acc o).snapY)
      = if |acc.y - o.position.y| < 10 then (o.position.y, some o.position.y)
        else (acc.y, acc.snapY) := by
  rw [snapStep, if_neg h]
  by_cases hc : |acc.y - o.position.y| < 10 <;> simp [hc]

lemma snap_foldl_decomp (cur : GameObject α) (sel : List (GameObject α)) :
    ∀ (objs : List (GameObject α)) (acc : SnapResult α),
      objs.foldl (snapStep cur sel) acc
        = { x := (objectSnap1D (acc.x, acc.snapX)
                ((objs.filter (fun o => decide (¬(o.id = cur.id ∨ o ∈ sel)))).map
                  (fun o => o.position.x))).1
            y := (objectSnap1D (acc.y, acc.snapY)
                ((objs.filter (fun o => decide (¬(o.id = cur.id ∨ o ∈ sel)))).map
                  (fun o => o.position.y))).1
            snapX := (objectSnap1D (acc.x, acc.snapX)
                ((objs.filter (fun o => decide (¬(o.id = cur.id ∨ o ∈ sel)))).map
                  (fun o => o.position.x))).2
            snapY := (objectSnap1D (acc.y, acc.snapY)
                ((objs.filter (fun o => decide (¬(o.id = cur.id ∨ o ∈ sel)))).map
                  (fun o => o.position.y))).2 } := by
  intro objs
  induction objs with
  | nil =>
    intro acc
    simp [objectSnap1D]
  | cons o rest ih =>
    intro acc
    by_cases hskip : o.id = cur.id ∨ o ∈ sel
    · have hfe : List.filter (fun o : GameObject α => decide (¬(o.id = cur.id ∨ o ∈ sel)))
          (o :: rest)
          = List.filter (fun o : GameObject α => decide (¬(o.id = cur.id ∨ o ∈ sel))) rest := by
        simp only [List.filter_cons]
        rw [if_neg (by simpa using not_not_intro hskip)]
      rw [List.foldl_cons,
        show snapStep cur sel acc o = acc from by rw [snapStep, if_pos hskip],
        ih acc, hfe]
    · have hfe : List.filter (fun o : GameObject α => decide (¬(o.id = cur.id ∨ o ∈ sel)))
          (o :: rest)
          = o :: List.filter (fun o : GameObject α => decide (¬(o.id = cur.id ∨ o ∈ sel))) rest := by
        simp only [List.filter_cons]
        rw [if_pos (by simpa using hskip)]
      rw [List.foldl_cons, ih (snapStep cur sel acc o), hfe]
      simp only [List.map_cons]
      rw [objectSnap1D_cons, objectSnap1D_cons,
        snapStep_pair_x cur sel acc o hskip, snapStep_pair_y cur sel acc o hskip]

lemma snapToGridAndObjects_eq_pipeline (x y : α) (cur : GameObject α)
    (sel : List (GameObject α)) (scene : Scene α) :
    ((snapToGridAndObjects x y cur sel scene).x, (snapToGridAndObjects x y cur sel scene).snapX)
      = objectSnap1D (gridSnap1D x) ((eligibleObjects cur sel scene).map (fun o => o.position.x)) ∧
    ((snapToGridAndObjects x y cur sel scene).y, (snapToGridAndObjects x y cur sel scene).snapY)
      = objectSnap1D (gridSnap1D y) ((eligibleObjects cur sel scene).map (fun o => o.position.y)) := by
  have hinit :
      snapToGridAndObjects x y cur sel scene
        = scene.gameObjects.foldl (snapStep cur sel)
            { x := (gridSnap1D x).1, y := (gridSnap1D y).1
              snapX := (gridSnap1D x).2, snapY := (gridSnap1D y).2 } := by
    rw [snapToGridAndObjects]
    congr 1
    by_cases hx : |x - gridSnapCoord x| < 10 <;> by_cases hy : |y - gridSnapCoord y| < 10 <;>
      simp [gridSnap1D, hx, hy]
  rw [hinit, snap_foldl_decomp cur sel scene.gameObjects, eligibleObjects]
  exact ⟨rfl, rfl⟩

lemma gridSnapCoord_eq_of_near (x : α) (m : ℤ) (h : |x - (m : α) * 50| < 10) :
    gridSnapCoord x = (m : α) * 50 := by
  have h50 : (50 : α) ≠ 0 := by norm_num
  have hq : x / 50 * 50 = x := div_mul_cancel₀ x h50
  have habs := abs_lt.mp h
  rw [← hq] at habs
  have hfloor : ⌊x / 50 + 1 / 2⌋ = m := by
    rw [Int.floor_eq_iff]
    constructor
    · linarith [habs.1]
    · push_cast
      linarith [habs.2]
  rw [gridSnapCoord, jsRound, hfloor]

lemma gridSnap1D_of_near (x : α) (m : ℤ) (h : |x - (m : α) * 50| < 10) :
    gridSnap1D x = ((m : α) * 50, some ((m : α) * 50)) := by
  have hg := gridSnapCoord_eq_of_near x m h
  rw [gridSnap1D, hg, if_pos h]

lemma gridSnap1D_of_far (x : α) (h : ∀ k : ℤ, 10 ≤ |x - (k : α) * 50|) :
    gridSnap1D x = (x, none) := by
  have hfar : ¬(|x - gridSnapCoord x| < 10) := by
    rw [gridSnapCoord]
    exact not_lt.mpr (h (jsRound (x / 50)))
  rw [gridSnap1D, if_neg hfar]

lemma objectSnap1D_far (p : α × Option α) :
    ∀ coords : List α, (∀ c ∈ coords, ¬(|p.1 - c| < 10)) → objectSnap1D p coords = p := by
  intro coords
  induction coords with
  | nil => intro _; rfl
  | cons c cs ih =>
    intro h
    rw [objectSnap1D, List.foldl_cons, if_neg (h c (by simp))]
    exact ih (fun d hd => h d (by simp [hd]))

/-- C3 (amended): snapping is computed per axis as a grid pass followed by an
object pass, but the passes do not short-circuit: the object pass starts from
the grid-snapped value and may replace it (iteration-order last match wins),
so a grid match is kept only when no eligible object lies within the 10-unit
threshold of the grid-snapped coordinate. -/
theorem snap_grid_then_object_pipeline {α : Type} [LinearOrderedField α] [FloorRing α]
    [DecidableEq α] (x y : α) (cur : GameObject α) (sel : List (GameObject α))
    (scene : Scene α) :
    ((snapToGridAndObjects x y cur sel scene).x, (snapToGridAndObjects x y cur sel scene).snapX)
      = objectSnap1D (gridSnap1D x)
          ((eligibleObjects cur sel scene).map (fun o => o.position.x)) ∧
    ((snapToGridAndObjects x y cur sel scene).y, (snapToGridAndObjects x y cur sel scene).snapY)
      = objectSnap1D (gridSnap1D y)
          ((eligibleObjects cur sel scene).map (fun o => o.position.y)) :=
  snapToGridAndObjects_eq_pipeline x y cur sel scene

/-- The dragged object in the snapping examples. -/
def snapCur : GameObject ℚ :=
  { id := "a", type := .asset, position := { x := 0, y := 0 }, rotation := 0
    scale := { x := 1, y := 1 } }

/-- An unselected object at x = 155, within the 10-unit threshold of the grid
multiple 150 (but not of the proposed coordinate 147). -/
def snapOther : GameObject ℚ :=
  { id := "b", type := .asset, position := { x := 155, y := 1000 }, rotation := 0
    scale := { x := 1, y := 1 } }

/-- Scene for the C3 counterexample. -/
def snapScene : Scene ℚ :=
  { id := "s", name := "s", gameObjects := [snapCur, snapOther], layers := none }

/-- C3 counterexample: the proposed x-coordinate 147 is within 10 units of the
grid multiple 150, yet the snapped result is 155 — the object-snap pass
replaced the grid-matched coordinate with the position of the unselected
object at 155 (which is 8 > threshold away from the proposed 147 itself).
First-match-wins across the two passes fails. -/
theorem snap_first_match_counterexample :
    |(147 : ℚ) - gridSnapCoord (147 : ℚ)| < 10 ∧
    gridSnapCoord (147 : ℚ) = 150 ∧
    (snapToGridAndObjects (147 : ℚ) 0 snapCur [] snapScene).x = 155 ∧
    (snapToGridAndObjects (147 : ℚ) 0 snapCur [] snapScene).snapX = some 155 := by
  have h147 : gridSnapCoord (147 : ℚ) = 150 := by
    rw [gridSnapCoord_eq_of_near 147 3 (by norm_num)]
    norm_num
  have h0 : gridSnapCoord (0 : ℚ) = 0 := by
    rw [gridSnapCoord_eq_of_near 0 0 (by norm_num)]
    norm_num
  refine ⟨by rw [h147]; norm_num, h147, ?_, ?_⟩ <;>
    norm_num [snapToGridAndObjects, snapScene, snapCur, snapOther, snapStep, h147, h0] <;>
    rw [if_neg (by decide)]

/-- Scene for the C4 spec example: only the dragged object itself. -/
def snapExampleScene : Scene ℚ :=
  { id := "s2", name := "s2", gameObjects := [snapCur], layers := none }

/-- C4: (1) a proposed coordinate strictly within the 10-unit threshold of a
multiple of 50, with no eligible object within the threshold of that multiple
on the same axis, snaps exactly to the multiple and reports the axis snapped;
(2) a coordinate at least 10 units from every multiple of 50 and from every
eligible object's coordinate is returned unchanged with no snap reported;
(3) in particular, the proposed position (147, 5) snaps to (150, 0) with both
axes reported snapped. -/
theorem snap_threshold_spec :
    (∀ {α : Type} [LinearOrderedField α] [FloorRing α] [DecidableEq α]
       (x y : α) (cur : GameObject α) (sel : List (GameObject α)) (scene : Scene α) (m : ℤ),
       |x - (m : α) * 50| < 10 →
       (∀ o ∈ eligibleObjects cur sel scene, 10 ≤ |(m : α) * 50 - o.position.x|) →
       (snapToGridAndObjects x y cur sel scene).x = (m : α) * 50 ∧
       (snapToGridAndObjects x y cur sel scene).snapX = some ((m : α) * 50)) ∧
    (∀ {α : Type} [LinearOrderedField α] [FloorRing α] [DecidableEq α]
       (x y : α) (cur : GameObject α) (sel : List (GameObject α)) (scene : Scene α),
       (∀ k : ℤ, 10 ≤ |x - (k : α) * 50|) →
       (∀ o ∈ eligibleObjects cur sel scene, 10 ≤ |x - o.position.x|) →
       (snapToGridAndObjects x y cur sel scene).x = x ∧
       (snapToGridAndObjects x y cur sel scene).snapX = none) ∧
    ((snapToGridAndObjects (147 : ℚ) 5 snapCur [] snapExampleScene).x = 150 ∧
     (snapToGridAndObjects (147 : ℚ) 5 snapCur [] snapExampleScene).y = 0 ∧
     (snapToGridAndObjects (147 : ℚ) 5 snapCur [] snapExampleScene).snapX = some 150 ∧
     (snapToGridAndObjects (147 : ℚ) 5 snapCur [] snapExampleScene).snapY = some 0) := by
  refine ⟨?_, ?_, ?_⟩
  · intro α _ _ _ x y cur sel scene m hnear hfar
    have hpipe := (snapToGridAndObjects_eq_pipeline x y cur sel scene).1
    rw [gridSnap1D_of_near x m hnear] at hpipe
    rw [objectSnap1D_far ((m : α) * 50, some ((m : α) * 50))
      ((eligibleObjects cur sel scene).map (fun o => o.position.x))
      (by
        intro c hc
        obtain ⟨o, ho, rfl⟩ := List.mem_map.mp hc
        exact not_lt.mpr (hfar o ho))] at hpipe
    exact ⟨congrArg Prod.fst hpipe, congrArg Prod.snd hpipe⟩
  · intro α _ _ _ x y cur sel scene hgrid hfar
    have hpipe := (snapToGridAndObjects_eq_pipeline x y cur sel scene).1
    rw [gridSnap1D_of_far x hgrid] at hpipe
    rw [objectSnap1D_far (x, (none : Option α))
      ((eligibleObjects cur sel scene).map (fun o => o.position.x))
      (by
        intro c hc
        obtain ⟨o, ho, rfl⟩ := List.mem_map.mp hc
        exact not_lt.mpr (hfar o ho))] at hpipe
    exact ⟨congrArg Prod.fst hpipe, congrArg Prod.snd hpipe⟩
  · have h147 : gridSnapCoord (147 : ℚ) = 150 := by
      rw [gridSnapCoord_eq_of_near 147 3 (by norm_num)]
      norm_num
    have h5 : gridSnapCoord (5 : ℚ) = 0 := by
      rw [gridSnapCoord_eq_of_near 5 0 (by norm_num)]
      norm_num
    refine ⟨?_, ?_, ?_, ?_⟩ <;>
      norm_num [snapToGridAndObjects, snapExampleScene, snapCur, snapStep, h147, h5]

theorem snap_threshold_spec_witness :
    (|(147 : ℚ) - ((3 : ℤ) : ℚ) * 50| < 10 ∧
      (snapToGridAndObjects (147 : ℚ) 0 snapCur [] snapExampleScene).x = ((3 : ℤ) : ℚ) * 50 ∧
      (snapToGridAndObjects (147 : ℚ) 0 snapCur [] snapExampleScene).snapX
        = some (((3 : ℤ) : ℚ) * 50)) ∧
    ((∀ k : ℤ, 10 ≤ |(13 : ℚ) - (k : ℚ) * 50|) ∧
      (snapToGridAndObjects (13 : ℚ) 0 snapCur [] snapExampleScene).x = 13 ∧
      (snapToGridAndObjects (13 : ℚ) 0 snapCur [] snapExampleScene).snapX = none) := by
  have helig : eligibleObjects snapCur [] snapExampleScene = [] := by decide
  have hfar1 : ∀ o ∈ eligibleObjects snapCur [] snapExampleScene,
      10 ≤ |((3 : ℤ) : ℚ) * 50 - o.position.x| := by
    rw [helig]
    intro o ho
    simp at ho
  have hk : ∀ k : ℤ, 10 ≤ |(13 : ℚ) - (k : ℚ) * 50| := by
    intro k
    rcases le_or_lt k 0 with hk0 | hk1
    · have hc : (k : ℚ) ≤ 0 := by exact_mod_cast hk0
      rw [abs_of_nonneg (by linarith)]
      linarith
    · have hc : (1 : ℚ) ≤ (k : ℚ) := by exact_mod_cast hk1
      rw [abs_of_nonpos (by linarith)]
      linarith
  have hfar2 : ∀ o ∈ eligibleObjects snapCur [] snapExampleScene,
      10 ≤ |(13 : ℚ) - o.position.x| := by
    rw [helig]
    intro o ho
    simp at ho
  exact ⟨⟨by norm_num,
      (snap_threshold_spec.1 147 0 snapCur [] snapExampleScene 3 (by norm_num) hfar1).1,
      (snap_threshold_spec.1 147 0 snapCur [] snapExampleScene 3 (by norm_num) hfar1).2⟩,
    ⟨hk,
      (snap_threshold_spec.2.1 13 0 snapCur [] snapExampleScene hk hfar2).1,
      (snap_threshold_spec.2.1 13 0 snapCur [] snapExampleScene hk hfar2).2⟩⟩

end Snap

end SaltEngine

namespace SaltEngine

/-! ## Marquee selection (`onMouseUp`) and the render layer filter (`render`) -/

section Marquee

variable {α : Type} [LinearOrderedField α]

/-- The containment test of the marquee branch of `onMouseUp`: the object's
position lies in the closed axis-aligned rectangle spanned by the two drag
endpoints (`minX = min(start.x, end.x)`, etc.). -/
def inMarqueeRect (startW endW : Vector2 α) (o : GameObject α) : Bool :=
  decide (min startW.x endW.x ≤ o.position.x) &&
  decide (o.position.x ≤ max startW.x endW.x) &&
  decide (min startW.y endW.y ≤ o.position.y) &&
  decide (o.position.y ≤ max startW.y endW.y)

/-- The marquee branch of `onMouseUp`: every object of the scene whose
position passes `inMarqueeRect` is added to the current selection
(`selectedObjects` is a JS `Set`; it is modelled by a list with membership
semantics). -/
def marqueeSelect (startW endW : Vector2 α) (scene : Scene α)
    (selected : List (GameObject α)) : List (GameObject α) :=
  selected ++ scene.gameObjects.filter (inMarqueeRect startW endW)

/-- The objects `render` draws: the scene's objects sorted by layer id
(`(a.layer ?? 0) - (b.layer ?? 0)` comparator, stable) with objects on
invisible layers skipped. -/
def renderedObjects (scene : Scene α) : List (GameObject α) :=
  (scene.gameObjects.mergeSort (fun a b => a.layer.getD 0 ≤ b.layer.getD 0)).filter
    (fun o => layerVisible scene o)

/-- C9: on marquee release an object is added to the selection iff its
position (both coordinates) lies in the closed world rectangle spanned by the
two drag endpoints; bounds play no role, so an object whose bounds overlap the
rectangle but whose position is outside it is not selected. -/
theorem marquee_position_only_selection :
    ∀ {α : Type} [LinearOrderedField α] (a b : Vector2 α) (scene : Scene α)
      (o : GameObject α),
      o ∈ marqueeSelect a b scene [] ↔
        o ∈ scene.gameObjects ∧
        min a.x b.x ≤ o.position.x ∧ o.position.x ≤ max a.x b.x ∧
        min a.y b.y ≤ o.position.y ∧ o.position.y ≤ max a.y b.y := by
  intro α _ a b scene o
  simp [marqueeSelect, List.mem_filter, inMarqueeRect, and_assoc]

/-- C10: marquee selection ignores layer visibility — an in-rectangle object
on an invisible layer is still added to the selection — even though `render`
skips exactly the objects whose layer is invisible. -/
theorem marquee_ignores_layer_visibility :
    ∀ {α : Type} [LinearOrderedField α] (a b : Vector2 α) (scene : Scene α)
      (sel : List (GameObject α)) (o : GameObject α),
      o ∈ scene.gameObjects →
      inMarqueeRect a b o = true →
      layerVisible scene o = false →
      o ∈ marqueeSelect a b scene sel ∧ o ∉ renderedObjects scene := by
  intro α _ a b scene sel o hmem hin hvis
  constructor
  · rw [marqueeSelect]
    exact List.mem_append_right _ (List.mem_filter.mpr ⟨hmem, hin⟩)
  · intro hr
    have := (List.mem_filter.mp hr).2
    rw [hvis] at this
    exact absurd this (by simp)

/-- The object inside the marquee rectangle but on an invisible layer. -/
def marqueeObj : GameObject ℚ :=
  { id := "m", type := .asset, position := { x := 1, y := 1 }, rotation := 0
    scale := { x := 1, y := 1 }, layer := some 0 }

/-- Scene whose only layer (id 0) is invisible. -/
def marqueeScene : Scene ℚ :=
  { id := "ms", name := "ms", gameObjects := [marqueeObj]
    layers := some [{ id := 0, name := "L", visible := false, locked := false }] }

theorem marquee_ignores_layer_visibility_witness :
    (marqueeObj ∈ marqueeScene.gameObjects ∧
      inMarqueeRect ({ x := 0, y := 0 } : Vector2 ℚ) { x := 2, y := 2 } marqueeObj = true ∧
      layerVisible marqueeScene marqueeObj = false) ∧
    (marqueeObj ∈ marqueeSelect ({ x := 0, y := 0 } : Vector2 ℚ) { x := 2, y := 2 } marqueeScene [] ∧
      marqueeObj ∉ renderedObjects marqueeScene) :=
  ⟨⟨by decide, by decide, by decide⟩,
    marquee_ignores_layer_visibility ({ x := 0, y := 0 } : Vector2 ℚ) { x := 2, y := 2 }
      marqueeScene [] marqueeObj (by decide) (by decide) (by decide)⟩

end Marquee

end SaltEngine

namespace SaltEngine

/-! ## Rotation-aware canvas geometry over `ℝ`

`Math.cos`/`Math.sin`/`Math.PI` are `Real.cos`/`Real.sin`/`Real.pi`; the
`Decidable` instances for the real comparisons are classical, mirroring the
exact float comparisons of the source. -/

open Classical in
/-- `CanvasRenderer.isPointInObject(x, y, obj)`: rotate the point into the
object's unrotated local frame (angle `-(rotation·π)/180`) and compare against
the scaled half-extents. -/
noncomputable def isPointInObject (x y : ℝ) (obj : GameObject ℝ) : Bool :=
  let bounds := getObjectBounds obj true
  let halfWidth := bounds.width / 2
  let halfHeight := bounds.height / 2
  let dx := x - obj.position.x
  let dy := y - obj.position.y
  let angle := -(obj.rotation * Real.pi) / 180
  let rotatedX := dx * Real.cos angle - dy * Real.sin angle
  let rotatedY := dx * Real.sin angle + dy * Real.cos angle
  decide (|rotatedX| ≤ halfWidth ∧ |rotatedY| ≤ halfHeight)

/-- The downward index loop of `onMouseDown`
(`for (let i = scene.gameObjects.length - 1; i >= 0; i--)`): `hitLoop x y objs n`
scans indices `n-1, n-2, …, 0` and returns the first object containing the
point. -/
noncomputable def hitLoop (x y : ℝ) (objs : List (GameObject ℝ)) : Nat → Option (GameObject ℝ)
  | 0 => none
  | i + 1 =>
    match objs[i]? with
    | some o => if isPointInObject x y o then some o else hitLoop x y objs i
    | none => hitLoop x y objs i

/-- The object hit test of `onMouseDown`: scan the scene's `gameObjects` from
the last inserted to the first, returning the first containing object. -/
noncomputable def hitTest (x y : ℝ) (scene : Scene ℝ) : Option (GameObject ℝ) :=
  hitLoop x y scene.gameObjects scene.gameObjects.length

lemma hitLoop_eq_find :
    ∀ (n : Nat) (x y : ℝ) (objs : List (GameObject ℝ)), n ≤ objs.length →
      hitLoop x y objs n = ((objs.take n).reverse).find? (isPointInObject x y) := by
  intro n
  induction n with
  | zero =>
    intro x y objs _
    simp [hitLoop]
  | succ i ih =>
    intro x y objs h
    have hi : i < objs.length := by omega
    rw [hitLoop, List.getElem?_eq_getElem hi, List.take_succ, List.getElem?_eq_getElem hi]
    simp only [Option.toList_some, List.reverse_append, List.reverse_cons, List.reverse_nil,
      List.nil_append, List.singleton_append, List.find?_cons]
    cases hp : isPointInObject x y objs[i] with
    | true => rfl
    | false => exact ih x y objs (by omega)

/-- C2 (amended): the pointer-down hit test returns the first object, in
reverse insertion order, whose unrotated local frame contains the point
(half-extents = base size × scale) — but it consults layer visibility nowhere:
the result is unchanged under any modification of the scene's layer list. -/
theorem hitTest_reverse_first_match_ignores_layers :
    ∀ (x y : ℝ) (scene : Scene ℝ),
      hitTest x y scene = (scene.gameObjects.reverse).find? (isPointInObject x y) ∧
      ∀ L : Option (List Layer),
        hitTest x y { scene with layers := L } = hitTest x y scene := by
  intro x y scene
  constructor
  · rw [hitTest, hitLoop_eq_find scene.gameObjects.length x y scene.gameObjects le_rfl,
      List.take_length]
  · intro L
    rfl

/-- A text object at the origin whose layer (id 0) will be invisible. -/
noncomputable def hiddenObj : GameObject ℝ :=
  { id := "h", type := .text_display, position := { x := 0, y := 0 }, rotation := 0
    scale := { x := 1, y := 1 }, layer := some 0 }

/-- Scene whose only layer is invisible but still contains `hiddenObj`. -/
noncomputable def hiddenScene : Scene ℝ :=
  { id := "hs", name := "hs", gameObjects := [hiddenObj]
    layers := some [{ id := 0, name := "L", visible := false, locked := false }] }

/-- C2 counterexample: the pointer-down hit test returns the object at the
origin even though its layer's `visible` flag is `false` — objects on
invisible layers are NOT skipped by this hit test. -/
theorem hitTest_hits_invisible_layer_counterexample :
    hitTest 0 0 hiddenScene = some hiddenObj ∧
    layerVisible hiddenScene hiddenObj = false := by
  constructor
  · have hpt : isPointInObject 0 0 hiddenObj = true := by
      simp only [isPointInObject, hiddenObj, getObjectBounds, decide_eq_true_eq]
      norm_num [Real.cos_zero, Real.sin_zero]
    have hstep : hitTest 0 0 hiddenScene
        = if isPointInObject 0 0 hiddenObj then some hiddenObj else none := rfl
    rw [hstep, if_pos hpt]
  · rfl

/-- The three handle kinds returned by `getHandleType`. -/
inductive HandleType where
  | corner
  | horizontal
  | vertical
  deriving DecidableEq, Repr

/-- `CanvasRenderer.getHandleType(handleIndex)`: 0–3 are corners, 5 and 7 are
horizontal edge handles, 4 and 6 vertical, anything else defaults to corner. -/
def getHandleType (i : Nat) : HandleType :=
  if i ≤ 3 then .corner
  else if i = 5 ∨ i = 7 then .horizontal
  else if i = 4 ∨ i = 6 then .vertical
  else .corner

/-- The `handles` array of the resize branch of `onMouseMove`: local positions
of the 8 handles on the initial unrotated box (indices 0 BL, 1 BR, 2 TR, 3 TL,
4 B, 5 R, 6 T, 7 L). -/
def handlesL (halfW halfH : ℝ) (i : Nat) : Vector2 ℝ :=
  if i = 0 then { x := -halfW, y := -halfH }
  else if i = 1 then { x := halfW, y := -halfH }
  else if i = 2 then { x := halfW, y := halfH }
  else if i = 3 then { x := -halfW, y := halfH }
  else if i = 4 then { x := 0, y := -halfH }
  else if i = 5 then { x := halfW, y := 0 }
  else if i = 6 then { x := 0, y := halfH }
  else { x := -halfW, y := 0 }

/-- The anchor-index map `{0:2, 1:3, 2:0, 3:1, 4:6, 5:7, 6:4, 7:5}` selecting
the diagonally opposite corner / opposite edge midpoint. -/
def oppositeHandle (i : Nat) : Nat :=
  if i = 0 then 2
  else if i = 1 then 3
  else if i = 2 then 0
  else if i = 3 then 1
  else if i = 4 then 6
  else if i = 5 then 7
  else if i = 6 then 4
  else 5

/-- `Math.sign(v || 1)`: 1 for `v ≥ 0` (including 0, via `|| 1`), else -1. -/
noncomputable def jsSignOr1 (x : ℝ) : ℝ := if x < 0 then -1 else 1

/-- The `v >= 0 ? 1 : -1` sign used for the new center offset. -/
noncomputable def signOf (x : ℝ) : ℝ := if 0 ≤ x then 1 else -1

/-- `minSize` of the resize branch: minimum absolute size per axis. -/
def minSize : ℝ := 5

/-- World position of a local offset `off` of a box centered at `pos` rotated
by `rotDeg` degrees: `pos + R(rotDeg·π/180)·off`.  This is the transform
`renderObject` applies to object-local points and the inverse of the rotation
used by `getHandleAt`; the resize code computes `newCenterWorldVec` with
exactly these cosine/sine combinations. -/
noncomputable def rotWorld (pos : Vector2 ℝ) (rotDeg : ℝ) (off : Vector2 ℝ) : Vector2 ℝ :=
  { x := pos.x + (off.x * Real.cos (rotDeg * Real.pi / 180)
      - off.y * Real.sin (rotDeg * Real.pi / 180))
    y := pos.y + (off.x * Real.sin (rotDeg * Real.pi / 180)
      + off.y * Real.cos (rotDeg * Real.pi / 180)) }

/-- The raw `newWidthLocal`/`newHeightLocal` of the resize branch before the
shift (aspect) adjustment: alt mode measures symmetric growth from the center,
non-alt measures from the anchor handle; edge handles freeze the orthogonal
axis at its initial size. -/
noncomputable def rawSize (anchor : Vector2 ℝ) (initW initH : ℝ) (handle : Nat)
    (alt : Bool) (mr : Vector2 ℝ) : ℝ × ℝ :=
  if alt then
    match getHandleType handle with
    | .corner => (|mr.x| * 2, |mr.y| * 2)
    | .horizontal => (|mr.x| * 2, initH)
    | .vertical => (initW, |mr.y| * 2)
  else
    match getHandleType handle with
    | .corner => (mr.x - anchor.x, mr.y - anchor.y)
    | .horizontal => (mr.x - anchor.x, initH)
    | .vertical => (initW, mr.y - anchor.y)

/-- The shift-key aspect-ratio adjustment on corner handles. -/
noncomputable def shiftAdjust (initW initH : ℝ) (handle : Nat) (shift : Bool)
    (p : ℝ × ℝ) : ℝ × ℝ :=
  if getHandleType handle = .corner ∧ shift = true then
    if |p.1| / |p.2| > initW / initH then (p.1, |p.1| / (initW / initH) * jsSignOr1 p.2)
    else (|p.2| * (initW / initH) * jsSignOr1 p.1, p.2)
  else p

/-- `newCenterLocalX/Y` of the resize branch: the new local center, offset from
the anchor by half the clamped size in the drag direction (edge handles keep
the orthogonal component at 0). -/
noncomputable def newCenterLocal (anchor : Vector2 ℝ) (ht : HandleType)
    (nw nh absW absH : ℝ) : Vector2 ℝ :=
  match ht with
  | .horizontal => { x := anchor.x + absW * signOf nw / 2, y := 0 }
  | .vertical => { x := 0, y := anchor.y + absH * signOf nh / 2 }
  | .corner => { x := anchor.x + absW * signOf nw / 2, y := anchor.y + absH * signOf nh / 2 }

/-- The tail of the resize branch: clamp each axis to `minSize`, derive the new
scale (`abs / base`), and place the new center (alt mode keeps the initial
position).  Returns (new scale, new position). -/
noncomputable def applyResize (base : Bounds ℝ) (initPos anchor : Vector2 ℝ)
    (ht : HandleType) (rotDeg nw nh : ℝ) (alt : Bool) : Vector2 ℝ × Vector2 ℝ :=
  ({ x := max minSize |nw| / base.width, y := max minSize |nh| / base.height },
   if alt then initPos
   else rotWorld initPos rotDeg
     (newCenterLocal anchor ht nw nh (max minSize |nw|) (max minSize |nh|)))

/-- One pointer-move step of the resize branch of `onMouseMove`, recomputed
from the gesture-start snapshot (`initPos`, `initScale`) exactly as the
source: rotate the mouse offset into the initial local frame with the negated
angle, size from the anchor (or center in alt mode), apply the shift aspect
constraint, clamp, rescale and recenter. -/
noncomputable def resizeStep (obj : GameObject ℝ) (initPos initScale : Vector2 ℝ)
    (handle : Nat) (alt shift : Bool) (worldPos : Vector2 ℝ) : Vector2 ℝ × Vector2 ℝ :=
  let base := getObjectBounds obj false
  let initW := base.width * initScale.x
  let initH := base.height * initScale.y
  let halfW := initW / 2
  let halfH := initH / 2
  let anchor := if alt then ({ x := 0, y := 0 } : Vector2 ℝ)
    else handlesL halfW halfH (oppositeHandle handle)
  let negAngle := -((obj.rotation * Real.pi) / 180)
  let mvx := worldPos.x - initPos.x
  let mvy := worldPos.y - initPos.y
  let mr : Vector2 ℝ := { x := mvx * Real.cos negAngle - mvy * Real.sin negAngle
                          y := mvx * Real.sin negAngle + mvy * Real.cos negAngle }
  let adj := shiftAdjust initW initH handle shift (rawSize anchor initW initH handle alt mr)
  applyResize base initPos anchor (getHandleType handle) obj.rotation adj.1 adj.2 alt

/-- The gesture-start world position of the resize pivot: the anchor handle
(`handles[opposite[handle]]`) mapped to world coordinates at the initial
transform. -/
noncomputable def resizeStartPivot (obj : GameObject ℝ) (initPos initScale : Vector2 ℝ)
    (handle : Nat) : Vector2 ℝ :=
  rotWorld initPos obj.rotation
    (handlesL ((getObjectBounds obj false).width * initScale.x / 2)
      ((getObjectBounds obj false).height * initScale.y / 2)
      (oppositeHandle handle))

lemma neg_signOf_cases (x : ℝ) : -signOf x = 1 ∨ -signOf x = -1 := by
  rw [signOf]
  by_cases h : 0 ≤ x <;> simp [h]

lemma rotWorld_add (p : Vector2 ℝ) (θ : ℝ) (u v : Vector2 ℝ) :
    rotWorld (rotWorld p θ u) θ v = rotWorld p θ { x := u.x + v.x, y := u.y + v.y } := by
  simp only [rotWorld, Vector2.mk.injEq]
  constructor <;> ring

lemma applyResize_pivot (base : Bounds ℝ) (initPos anchor : Vector2 ℝ) (ht : HandleType)
    (rotDeg nw nh : ℝ) (hbw : base.width ≠ 0) (hbh : base.height ≠ 0) :
    (ht = .corner → ∃ sx sy : ℝ, (sx = 1 ∨ sx = -1) ∧ (sy = 1 ∨ sy = -1) ∧
      rotWorld (applyResize base initPos anchor ht rotDeg nw nh false).2 rotDeg
        { x := sx * (base.width * (applyResize base initPos anchor ht rotDeg nw nh false).1.x / 2)
          y := sy * (base.height * (applyResize base initPos anchor ht rotDeg nw nh false).1.y / 2) }
        = rotWorld initPos rotDeg anchor) ∧
    (ht = .horizontal → anchor.y = 0 → ∃ sx : ℝ, (sx = 1 ∨ sx = -1) ∧
      rotWorld (applyResize base initPos anchor ht rotDeg nw nh false).2 rotDeg
        { x := sx * (base.width * (applyResize base initPos anchor ht rotDeg nw nh false).1.x / 2)
          y := 0 }
        = rotWorld initPos rotDeg anchor) ∧
    (ht = .vertical → anchor.x = 0 → ∃ sy : ℝ, (sy = 1 ∨ sy = -1) ∧
      rotWorld (applyResize base initPos anchor ht rotDeg nw nh false).2 rotDeg
        { x := 0
          y := sy * (base.height * (applyResize base initPos anchor ht rotDeg nw nh false).1.y / 2) }
        = rotWorld initPos rotDeg anchor) := by
  have hW : base.width * (max minSize |nw| / base.width) / 2 = max minSize |nw| / 2 := by
    field_simp
  have hH : base.height * (max minSize |nh| / base.height) / 2 = max minSize |nh| / 2 := by
    field_simp
  refine ⟨?_, ?_, ?_⟩ <;> intro hht <;> subst hht
  · refine ⟨-signOf nw, -signOf nh, neg_signOf_cases nw, neg_signOf_cases nh, ?_⟩
    simp only [applyResize, Bool.false_eq_true, if_false, hW, hH]
    rw [rotWorld_add]
    congr 1
    refine Vector2.ext ?_ ?_ <;> simp only [newCenterLocal] <;> ring
  · intro ha
    refine ⟨-signOf nw, neg_signOf_cases nw, ?_⟩
    simp only [applyResize, Bool.false_eq_true, if_false, hW, hH]
    rw [rotWorld_add]
    congr 1
    refine Vector2.ext ?_ ?_ <;> simp only [newCenterLocal, ha] <;> ring
  · intro ha
    refine ⟨-signOf nh, neg_signOf_cases nh, ?_⟩
    simp only [applyResize, Bool.false_eq_true, if_false, hW, hH]
    rw [rotWorld_add]
    congr 1
    refine Vector2.ext ?_ ?_ <;> simp only [newCenterLocal, ha] <;> ring

lemma getHandleType_horizontal_cases (handle : Nat)
    (hht : getHandleType handle = .horizontal) : handle = 5 ∨ handle = 7 := by
  rw [getHandleType] at hht
  split_ifs at hht with h1 h2 h3 <;> first | assumption | simp at hht

lemma getHandleType_vertical_cases (handle : Nat)
    (hht : getHandleType handle = .vertical) : handle = 4 ∨ handle = 6 := by
  rw [getHandleType] at hht
  split_ifs at hht with h1 h2 h3 <;> first | assumption | simp at hht

/-- C1: during a non-alt resize step from any of the 8 handles — for any
gesture-start position, scale and rotation, any pointer position, with or
without the shift aspect-ratio constraint, and including when the 5-unit
minimum-size clamp fires — the world coordinate of the gesture-start pivot
(the diagonally opposite corner, or the opposite edge midpoint for an edge
handle) is still occupied by the corresponding corner (edge midpoint) of the
resized object: the pivot's world coordinate is unchanged by the step.  The
half-extents of the resized object are its base size times the new scale, and
the signs `sx`/`sy` select the rectangle corner on the anchor side (they
differ from the nominal handle orientation exactly when the drag crossed the
pivot and the box flipped). -/
theorem resize_nonalt_pivot_fixed (obj : GameObject ℝ) (initPos initScale : Vector2 ℝ)
    (handle : Nat) (shift : Bool) (worldPos : Vector2 ℝ)
    (h8 : handle < 8)
    (hbw : 0 < (getObjectBounds obj false).width)
    (hbh : 0 < (getObjectBounds obj false).height) :
    (getHandleType handle = .corner → ∃ sx sy : ℝ, (sx = 1 ∨ sx = -1) ∧ (sy = 1 ∨ sy = -1) ∧
      rotWorld (resizeStep obj initPos initScale handle false shift worldPos).2 obj.rotation
        { x := sx * ((getObjectBounds obj false).width
            * (resizeStep obj initPos initScale handle false shift worldPos).1.x / 2)
          y := sy * ((getObjectBounds obj false).height
            * (resizeStep obj initPos initScale handle false shift worldPos).1.y / 2) }
        = resizeStartPivot obj initPos initScale handle) ∧
    (getHandleType handle = .horizontal → ∃ sx : ℝ, (sx = 1 ∨ sx = -1) ∧
      rotWorld (resizeStep obj initPos initScale handle false shift worldPos).2 obj.rotation
        { x := sx * ((getObjectBounds obj false).width
            * (resizeStep obj initPos initScale handle false shift worldPos).1.x / 2)
          y := 0 }
        = resizeStartPivot obj initPos initScale handle) ∧
    (getHandleType handle = .vertical → ∃ sy : ℝ, (sy = 1 ∨ sy = -1) ∧
      rotWorld (resizeStep obj initPos initScale handle false shift worldPos).2 obj.rotation
        { x := 0
          y := sy * ((getObjectBounds obj false).height
            * (resizeStep obj initPos initScale handle false shift worldPos).1.y / 2) }
        = resizeStartPivot obj initPos initScale handle) := by
  simp only [resizeStep, resizeStartPivot, Bool.false_eq_true, if_false]
  refine ⟨?_, ?_, ?_⟩
  · intro hht
    exact (applyResize_pivot _ _ _ _ _ _ _ (ne_of_gt hbw) (ne_of_gt hbh)).1 hht
  · intro hht
    refine (applyResize_pivot _ _ _ _ _ _ _ (ne_of_gt hbw) (ne_of_gt hbh)).2.1 hht ?_
    rcases getHandleType_horizontal_cases handle hht with h | h <;> subst h <;>
      simp [oppositeHandle, handlesL]
  · intro hht
    refine (applyResize_pivot _ _ _ _ _ _ _ (ne_of_gt hbw) (ne_of_gt hbh)).2.2 hht ?_
    rcases getHandleType_vertical_cases handle hht with h | h <;> subst h <;>
      simp [oppositeHandle, handlesL]

/-- Concrete object (text display, base 100×50) for the resize pivot witness. -/
noncomputable def resizeObj : GameObject ℝ :=
  { id := "r", type := .text_display, position := { x := 0, y := 0 }, rotation := 0
    scale := { x := 1, y := 1 } }

theorem resize_nonalt_pivot_fixed_witness :
    (0 : Nat) < 8 ∧
    0 < (getObjectBounds resizeObj false).width ∧
    0 < (getObjectBounds resizeObj false).height ∧
    (getHandleType 0 = .corner → ∃ sx sy : ℝ, (sx = 1 ∨ sx = -1) ∧ (sy = 1 ∨ sy = -1) ∧
      rotWorld (resizeStep resizeObj { x := 0, y := 0 } { x := 1, y := 1 } 0 false false
          { x := 7, y := 9 }).2 resizeObj.rotation
        { x := sx * ((getObjectBounds resizeObj false).width
            * (resizeStep resizeObj { x := 0, y := 0 } { x := 1, y := 1 } 0 false false
                { x := 7, y := 9 }).1.x / 2)
          y := sy * ((getObjectBounds resizeObj false).height
            * (resizeStep resizeObj { x := 0, y := 0 } { x := 1, y := 1 } 0 false false
                { x := 7, y := 9 }).1.y / 2) }
        = resizeStartPivot resizeObj { x := 0, y := 0 } { x := 1, y := 1 } 0) := by
  have hw : (0 : ℝ) < (getObjectBounds resizeObj false).width := by
    norm_num [getObjectBounds, resizeObj]
  have hh : (0 : ℝ) < (getObjectBounds resizeObj false).height := by
    norm_num [getObjectBounds, resizeObj]
  exact ⟨by norm_num, hw, hh,
    (resize_nonalt_pivot_fixed resizeObj { x := 0, y := 0 } { x := 1, y := 1 } 0 false
      { x := 7, y := 9 } (by norm_num) hw hh).1⟩

end SaltEngine
